import Mathlib

/-!
# Verification of the solrust trading-engine scaffold

Shallow embedding of `src/engine/src/*.rs` (a Rust/tokio trading engine) together
with models, built from the specification, of the decision components whose code is
declared or called from `src/` but whose implementation is absent from `src/`
(`account.rs` is referenced by `main.rs` but missing; `SignalEngine::run`,
`Executor::run` and `Config::load` are TODO stubs; a RiskGate does not appear in
`src/` at all).

All `f64` values of the source are modelled as exact rationals (`ℚ`); the claims
under study are about the intended real-number arithmetic, not float rounding.
-/

namespace Solrust

/-! ## Configuration (from `src/engine/src/config.rs`) -/

/-- From `config.rs`: exchange credentials. -/
structure ExchangeConfig where
  binance_key : String
  binance_sec : String
deriving DecidableEq

/-- From `config.rs`: the spot/hedge symbol pair. -/
structure SymbolsConfig where
  spot : String
  hedge : String
deriving DecidableEq

/-- From `config.rs`: the four signal thresholds (`f64` modelled as `ℚ`). -/
structure ThresholdsConfig where
  meme_drop_pct : ℚ
  rsi_max : ℚ
  support_low : ℚ
  support_high : ℚ
deriving DecidableEq

/-- From `config.rs`: the two risk parameters (`f64` modelled as `ℚ`). -/
structure RiskConfig where
  max_trade_risk : ℚ
  stop_loss : ℚ
deriving DecidableEq

/-- From `config.rs`: the full configuration record. -/
structure Config where
  exchange : ExchangeConfig
  symbols : SymbolsConfig
  thresholds : ThresholdsConfig
  risk : RiskConfig
deriving DecidableEq

/-- Error type for configuration loading (the source uses `anyhow::Result`;
a missing required field would be one such error). -/
inductive ConfigError
  | missingField (field : String)
deriving DecidableEq

/-- From `config.rs` (`Config::load`): the loader is a TODO stub that reads no TOML
file and no `.env`; it unconditionally returns `Ok` with the hardcoded values below
and can never fail. -/
def Config.load : Except ConfigError Config :=
  .ok
    { exchange := { binance_key := "test", binance_sec := "test" }
      symbols := { spot := "SOLUSDT", hedge := "SOLUSD_PERP" }
      thresholds :=
        { meme_drop_pct := 3/10, rsi_max := 45, support_low := 160, support_high := 162 }
      risk := { max_trade_risk := 1/20, stop_loss := 155 } }

/-! ## Telemetry (from `src/engine/src/telemetry.rs`) -/

/-- From `telemetry.rs` (`metrics_handler`): the handler takes no input and returns
this constant body, reporting a status gauge of 1 regardless of any engine state. -/
def metrics_handler : String :=
  "# HELP sol_volume_bot_status Bot status\n# TYPE sol_volume_bot_status gauge\nsol_volume_bot_status 1\n"

/-- From `telemetry.rs` (`health_handler`): the handler takes no input and returns
the constant body `OK`. -/
def health_handler : String := "OK"

/-- From `telemetry.rs` (`TelemetryServer::run`): the axum router maps `/metrics`
and `/health` to the two constant handlers; no other route is registered. Neither
handler receives any state, so the response is a function of the path alone. -/
def telemetryRespond (path : String) : Option String :=
  if path = "/metrics" then some metrics_handler
  else if path = "/health" then some health_handler
  else none

/-! ## Process lifecycle (from `src/engine/src/main.rs`) -/

/-- The four core components raced in `main`'s `tokio::select!`. -/
inductive Component
  | dataMux
  | signalEngine
  | executor
  | accountManager
deriving DecidableEq

/-- The component name as it appears in `main.rs`'s `warn!` format strings. -/
def Component.displayName : Component → String
  | .dataMux => "DataMux"
  | .signalEngine => "SignalEngine"
  | .executor => "Executor"
  | .accountManager => "AccountManager"

/-- The event that wins `main`'s `tokio::select!`: either one of the four core
component futures completes, or the external `ctrl_c` shutdown signal arrives. -/
inductive MainEvent
  | componentTerminated (c : Component)
  | shutdownSignal
deriving DecidableEq

/-- Structured log lines emitted by `main` after the `select!` resolves. -/
inductive LogLine
  | warnTerminated (component : String)
  | infoShutdownSignal
  | infoShuttingDown
deriving DecidableEq

/-- From `main.rs` (`main`): each component branch logs
`warn!("<Name> terminated: {:?}", result)` and the shutdown branch logs
`info!("Received shutdown signal")`; every branch then falls through to
`info!("Shutting down SolVolumeBot")`. -/
def mainLogs : MainEvent → List LogLine
  | .componentTerminated c => [.warnTerminated c.displayName, .infoShuttingDown]
  | .shutdownSignal => [.infoShutdownSignal, .infoShuttingDown]

/-- From `main.rs` (`main`): after the `select!` block, every path falls through to
the graceful-shutdown code and returns `Ok(())`, so the process exit code is 0 on
every path, including unrecoverable termination of a core component. -/
def mainExitCode : MainEvent → Nat
  | .componentTerminated _ => 0
  | .shutdownSignal => 0

/-! ## Signal evaluation (modelled from the spec, §4.1)

`src/engine/src/signal.rs` declares `SignalEngine` but its `run` is a TODO stub
(it sleeps and returns `Ok(())`); the indicator and threshold logic is absent
from `src/`, so it is modelled from the specification. -/

/-- Trade direction of an intent or position. -/
inductive Direction
  | long
  | short
  | flat
deriving DecidableEq

/-- Modelled from the spec (§3 data model): a market tick. The optional indicator
snapshot is modelled by carrying the RSI value on the tick. Timestamps are `ℕ`,
prices and indicator values exact rationals. -/
structure Tick where
  instrument : String
  timestamp : ℕ
  price : ℚ
  rsi : ℚ
deriving DecidableEq

/-- Modelled from the spec (§3 data model): a trade intent produced by the
signal evaluator. -/
structure TradeIntent where
  instrument : String
  direction : Direction
  size : ℚ
  rationale : String
  generated_at : ℕ
deriving DecidableEq

/-- Modelled from the spec: the recent high of the rolling tick window
(the maximum price seen in the window; prices are positive in practice, so a
floor of 0 is harmless). -/
def recentHigh (window : List Tick) : ℚ :=
  window.foldl (fun m t => max m t.price) 0

/-- Modelled from the spec: percent drop from the recent high down to the
given price, as a fraction of the high. -/
def percentDrop (high price : ℚ) : ℚ := (high - price) / high

/-- Modelled from the spec (§4.1, step 3, threshold policy): `evaluate` over a
rolling window of prior ticks and the current tick fires a long intent exactly
when percent-drop ≥ `meme_drop_pct` AND RSI ≤ `rsi_max` AND the price lies
within `[support_low, support_high]` — all three simultaneously. The spec leaves
position sizing unspecified, so the suggested size is the parameter `size0`. -/
def evaluate (cfg : ThresholdsConfig) (size0 : ℚ) (window : List Tick) (t : Tick) :
    Option TradeIntent :=
  if cfg.meme_drop_pct ≤ percentDrop (recentHigh (t :: window)) t.price ∧
      t.rsi ≤ cfg.rsi_max ∧ cfg.support_low ≤ t.price ∧ t.price ≤ cfg.support_high
  then
    some
      { instrument := t.instrument, direction := .long, size := size0,
        rationale := "meme_drop+rsi+support", generated_at := t.timestamp }
  else none

/-- Modelled from the spec (§4.1, step 4, hysteresis): after an intent fires,
the evaluator re-arms only when price exits the support band or RSI rises above
`rsi_max`. -/
def resetCond (cfg : ThresholdsConfig) (t : Tick) : Bool :=
  decide (t.price < cfg.support_low) || decide (cfg.support_high < t.price) ||
    decide (cfg.rsi_max < t.rsi)

/-- Modelled from the spec (§4.1): the per-instrument evaluator state — the
bounded rolling history, the last seen timestamp (for dropping out-of-order
ticks), and the hysteresis flag (`fired = true` while re-triggering is
suppressed). -/
structure EvalState where
  history : List Tick
  lastTs : Option ℕ
  fired : Bool
deriving DecidableEq

/-- The evaluator state before any tick has been seen. -/
def EvalState.init : EvalState := { history := [], lastTs := none, fired := false }

/-- Modelled from the spec (§4.1, failure semantics): a tick is accepted unless
its timestamp is ≤ the last seen timestamp (out-of-order ticks are dropped). -/
def accepts (st : EvalState) (t : Tick) : Bool :=
  match st.lastTs with
  | none => true
  | some ts0 => decide (ts0 < t.timestamp)

/-- Modelled from the spec (§4.1): one evaluator step on a new tick. Dropped
ticks change nothing and emit nothing. An accepted tick updates the rolling
history (bounded by `lookback`), emits the `evaluate` intent only when the
hysteresis flag is clear (edge-triggering), and updates the flag: it is set on
emission and cleared only by the reset condition. -/
def signalStep (cfg : ThresholdsConfig) (size0 : ℚ) (lookback : ℕ)
    (st : EvalState) (t : Tick) : EvalState × Option TradeIntent :=
  if accepts st t then
    ({ history := (t :: st.history).take lookback,
       lastTs := some t.timestamp,
       fired := (if st.fired then none else evaluate cfg size0 st.history t).isSome ||
         (st.fired && !(resetCond cfg t)) },
     if st.fired then none else evaluate cfg size0 st.history t)
  else (st, none)

/-- Modelled from the spec (§4.1): run the evaluator over a tick sequence,
collecting the per-tick emission (`none` when no intent fires). -/
def runSignals (cfg : ThresholdsConfig) (size0 : ℚ) (lookback : ℕ) :
    EvalState → List Tick → List (Option TradeIntent)
  | _, [] => []
  | st, t :: ts =>
      (signalStep cfg size0 lookback st t).2 ::
        runSignals cfg size0 lookback (signalStep cfg size0 lookback st t).1 ts

theorem runSignals_nil (cfg : ThresholdsConfig) (size0 : ℚ) (lookback : ℕ)
    (st : EvalState) : runSignals cfg size0 lookback st [] = [] := rfl

theorem runSignals_cons (cfg : ThresholdsConfig) (size0 : ℚ) (lookback : ℕ)
    (st : EvalState) (t : Tick) (ts : List Tick) :
    runSignals cfg size0 lookback st (t :: ts) =
      (signalStep cfg size0 lookback st t).2 ::
        runSignals cfg size0 lookback (signalStep cfg size0 lookback st t).1 ts := rfl

/-- A step taken while the hysteresis flag is set emits nothing. -/
theorem signalStep_snd_of_fired (cfg : ThresholdsConfig) (size0 : ℚ) (lookback : ℕ)
    (st : EvalState) (t : Tick) (h : st.fired = true) :
    (signalStep cfg size0 lookback st t).2 = none := by
  unfold signalStep
  cases hacc : accepts st t <;> simp [hacc, h]

/-- After a step taken while the hysteresis flag is set, the flag is still set
unless the tick was accepted and satisfied the reset condition. -/
theorem signalStep_fst_fired_of_fired (cfg : ThresholdsConfig) (size0 : ℚ) (lookback : ℕ)
    (st : EvalState) (t : Tick) (h : st.fired = true) :
    (signalStep cfg size0 lookback st t).1.fired =
      (!(accepts st t) || !(resetCond cfg t)) := by
  unfold signalStep
  cases hacc : accepts st t <;> simp [hacc, h]

/-- A step that emits an intent sets the hysteresis flag. -/
theorem signalStep_fst_fired_of_emit (cfg : ThresholdsConfig) (size0 : ℚ) (lookback : ℕ)
    (st : EvalState) (t : Tick) (a : TradeIntent)
    (h : (signalStep cfg size0 lookback st t).2 = some a) :
    (signalStep cfg size0 lookback st t).1.fired = true := by
  unfold signalStep at h ⊢
  cases hacc : accepts st t
  · simp [hacc] at h
  · cases hf : st.fired
    · simp [hacc, hf] at h ⊢
      simp [h]
    · simp [hacc, hf] at h

/-- While the hysteresis flag is set, any later emission is preceded by a tick
satisfying the reset condition. -/
theorem runSignals_blocked (cfg : ThresholdsConfig) (size0 : ℚ) (lookback : ℕ) :
    ∀ (ts : List Tick) (st : EvalState), st.fired = true →
      ∀ (j : ℕ) (b : TradeIntent),
        (runSignals cfg size0 lookback st ts)[j]? = some (some b) →
        ∃ k, k < j ∧ ∃ t, ts[k]? = some t ∧ resetCond cfg t = true := by
  intro ts
  induction ts with
  | nil => intro st _ j b h; simp [runSignals_nil] at h
  | cons t ts ih =>
    intro st hf j b hb
    rw [runSignals_cons] at hb
    match j with
    | 0 =>
      rw [List.getElem?_cons_zero, signalStep_snd_of_fired cfg size0 lookback st t hf] at hb
      simp at hb
    | j + 1 =>
      rw [List.getElem?_cons_succ] at hb
      cases hr : resetCond cfg t
      · have hf' : (signalStep cfg size0 lookback st t).1.fired = true := by
          rw [signalStep_fst_fired_of_fired cfg size0 lookback st t hf, hr]
          simp
        obtain ⟨k, hk, t', ht', hrt⟩ := ih _ hf' j b hb
        exact ⟨k + 1, Nat.succ_lt_succ hk, t', by rw [List.getElem?_cons_succ]; exact ht', hrt⟩
      · exact ⟨0, Nat.succ_pos j, t, List.getElem?_cons_zero, hr⟩

/-- Between any two emissions of a run there is a tick satisfying the reset
condition: the first emission sets the hysteresis flag, which must be cleared
by a reset before anything can fire again. -/
theorem runSignals_two_emissions (cfg : ThresholdsConfig) (size0 : ℚ) (lookback : ℕ) :
    ∀ (ts : List Tick) (st : EvalState) (i j : ℕ) (a b : TradeIntent), i < j →
      (runSignals cfg size0 lookback st ts)[i]? = some (some a) →
      (runSignals cfg size0 lookback st ts)[j]? = some (some b) →
      ∃ k, i < k ∧ k < j ∧ ∃ t, ts[k]? = some t ∧ resetCond cfg t = true := by
  intro ts
  induction ts with
  | nil => intro st i j a b _ ha _; simp [runSignals_nil] at ha
  | cons t ts ih =>
    intro st i j a b hij ha hb
    rw [runSignals_cons] at ha hb
    match i, j with
    | 0, 0 => omega
    | 0, j + 1 =>
      rw [List.getElem?_cons_zero] at ha
      rw [List.getElem?_cons_succ] at hb
      have h2 : (signalStep cfg size0 lookback st t).2 = some a := by
        exact Option.some.inj ha
      have hf' := signalStep_fst_fired_of_emit cfg size0 lookback st t a h2
      obtain ⟨k, hk, t', ht', hrt⟩ :=
        runSignals_blocked cfg size0 lookback ts _ hf' j b hb
      exact ⟨k + 1, Nat.succ_pos k, Nat.succ_lt_succ hk, t',
        by rw [List.getElem?_cons_succ]; exact ht', hrt⟩
    | i + 1, 0 => omega
    | i + 1, j + 1 =>
      rw [List.getElem?_cons_succ] at ha hb
      obtain ⟨k, hk1, hk2, t', ht', hrt⟩ := ih _ i j a b (by omega) ha hb
      exact ⟨k + 1, by omega, by omega, t',
        by rw [List.getElem?_cons_succ]; exact ht', hrt⟩

/-! ## Account state (modelled from the spec, §3, §4.4)

`main.rs` declares `mod account` and calls `AccountManager`, but `account.rs` is
absent from `src/`, so `AccountState` and `apply_fill` are modelled from the
specification. -/

/-- Modelled from the spec (§3 data model): an open position. Direction is
encoded by the sign of `net_size` (positive = long, negative = short). -/
structure Position where
  instrument : String
  net_size : ℚ
  entry_price : ℚ
  unrealized_pnl : ℚ
  stop_loss_price : ℚ
deriving DecidableEq

/-- Modelled from the spec: a fill event from the exchange. A signed `size`
(positive = buy/long, negative = sell/short) at a `price`. -/
structure Fill where
  instrument : String
  size : ℚ
  price : ℚ
  timestamp : ℕ
deriving DecidableEq

/-- Modelled from the spec (§7 error taxonomy): the account error surfaced when
a fill references an instrument with no matching prior intent/order record. -/
inductive AccountError
  | Inconsistent
deriving DecidableEq

/-- Modelled from the spec (§3, §4.4): the account ledger — balance, open
positions, and the set of instruments having a prior intent/order record
(against which `apply_fill`'s defensive invariant check runs). -/
structure AccountState where
  balance : ℚ
  positions : List Position
  records : List String
deriving DecidableEq

/-- Look up the position for an instrument. -/
def findPos (ps : List Position) (i : String) : Option Position :=
  ps.find? (fun p => p.instrument = i)

/-- Replace (or insert) the position for `q.instrument`. -/
def setPos (ps : List Position) (q : Position) : List Position :=
  q :: ps.filter (fun p => p.instrument ≠ q.instrument)

/-- Modelled from the spec (§4.4): `stop_loss_price = entry_price × (1 − stop_loss)`
for long positions, mirrored (`× (1 + stop_loss)`) for shorts. -/
def stopLossPrice (stop_loss entry netSize : ℚ) : ℚ :=
  if netSize < 0 then entry * (1 + stop_loss) else entry * (1 - stop_loss)

/-- Modelled from the spec (§3, §4.4): a brand-new position opened by a fill on
an instrument with no open position. -/
def newPos (cfg : RiskConfig) (f : Fill) : Position :=
  { instrument := f.instrument, net_size := f.size, entry_price := f.price,
    unrealized_pnl := 0,
    stop_loss_price := stopLossPrice cfg.stop_loss f.price f.size }

/-- Modelled from the spec (§4.4): the size-weighted-average entry price after a
same-direction fill is folded into a position (the degenerate zero-total case
keeps the old entry price). -/
def combineEntry (p : Position) (f : Fill) : ℚ :=
  if p.net_size + f.size = 0 then p.entry_price
  else (p.entry_price * p.net_size + f.price * f.size) / (p.net_size + f.size)

/-- Modelled from the spec (§4.4): a same-direction fill folded into a position:
`net_size` is summed, `entry_price` becomes the size-weighted average, and
`stop_loss_price` and `unrealized_pnl` are recomputed from the new entry price
(P&L against the fill's price, the latest known price at application time). -/
def combinePos (cfg : RiskConfig) (p : Position) (f : Fill) : Position :=
  { instrument := f.instrument, net_size := p.net_size + f.size,
    entry_price := combineEntry p f,
    unrealized_pnl := (f.price - combineEntry p f) * (p.net_size + f.size),
    stop_loss_price := stopLossPrice cfg.stop_loss (combineEntry p f) (p.net_size + f.size) }

/-- Modelled from the spec (§4.4): an opposite-direction fill reduces the
position at unchanged entry price, recomputing `stop_loss_price` and
`unrealized_pnl`. -/
def reducePos (cfg : RiskConfig) (p : Position) (f : Fill) : Position :=
  { instrument := f.instrument, net_size := p.net_size + f.size,
    entry_price := p.entry_price,
    unrealized_pnl := (f.price - p.entry_price) * (p.net_size + f.size),
    stop_loss_price := stopLossPrice cfg.stop_loss p.entry_price (p.net_size + f.size) }

/-- Modelled from the spec (§4.4 `AccountState.apply_fill`): the sole writer of
position state. Mirrors Rust's `&mut self` receiver returning
`Result<(), AccountError>` by returning the (possibly updated) state together
with the result; on the error path the incoming state is returned untouched.
Fails with `AccountError::Inconsistent` when the fill's instrument has no prior
intent/order record; otherwise stores the new, combined, or reduced position. -/
def applyFill (cfg : RiskConfig) (st : AccountState) (f : Fill) :
    AccountState × Except AccountError Unit :=
  if f.instrument ∈ st.records then
    match findPos st.positions f.instrument with
    | none => ({ st with positions := setPos st.positions (newPos cfg f) }, .ok ())
    | some p =>
        if 0 ≤ p.net_size * f.size then
          ({ st with positions := setPos st.positions (combinePos cfg p f) }, .ok ())
        else
          ({ st with positions := setPos st.positions (reducePos cfg p f) }, .ok ())
  else (st, .error .Inconsistent)

/-! ## Risk gate (modelled from the spec, §4.2)

No RiskGate appears anywhere under `src/`; it is modelled from the
specification. -/

/-- Modelled from the spec (§3 data model): the read-only view handed to the
risk gate — balance, total account equity, and the open positions. -/
structure AccountSnapshot where
  balance : ℚ
  equity : ℚ
  positions : List Position
deriving DecidableEq

/-- Modelled from the spec (§3 data model): the risk gate's decision. -/
structure RiskDecision where
  approved : Bool
  adjusted_size : ℚ
  reason_if_rejected : Option String
deriving DecidableEq

/-- Modelled from the spec (§4.2, rejection (b)): the snapshot already holds a
position on the intent's instrument in the opposite direction. -/
def oppositeOpen (snap : AccountSnapshot) (intent : TradeIntent) : Bool :=
  snap.positions.any fun p =>
    p.instrument = intent.instrument &&
      (match intent.direction with
       | .long => decide (p.net_size < 0)
       | .short => decide (0 < p.net_size)
       | .flat => false)

/-- Modelled from the spec (§4.2 `RiskGate.check`): a pure function of the
intent and the snapshot. Rejects on an opposite-direction open position or on
insufficient balance to cover the requested size (sizes are notional, in quote
currency); otherwise approves, reducing the size to the maximum allowed under
`max_trade_risk` × equity when the request exceeds it (partial approval instead
of rejection) and approving the requested size unchanged otherwise. -/
def check (cfg : RiskConfig) (intent : TradeIntent) (snap : AccountSnapshot) :
    RiskDecision :=
  if oppositeOpen snap intent then
    { approved := false, adjusted_size := 0,
      reason_if_rejected := some "opposite position open" }
  else if snap.balance < intent.size then
    { approved := false, adjusted_size := 0,
      reason_if_rejected := some "insufficient balance" }
  else if cfg.max_trade_risk * snap.equity < intent.size then
    { approved := true, adjusted_size := cfg.max_trade_risk * snap.equity,
      reason_if_rejected := some "size reduced to max_trade_risk cap" }
  else
    { approved := true, adjusted_size := intent.size, reason_if_rejected := none }

/-- A batch of `check` invocations in some order/interleaving: each call is an
(intent, snapshot) pair, and the decisions are collected in call order. -/
def runChecks (cfg : RiskConfig) (calls : List (TradeIntent × AccountSnapshot)) :
    List RiskDecision :=
  calls.map fun p => check cfg p.1 p.2

/-! ## Stop-loss monitor (modelled from the spec, §4.3)

`execution.rs` declares `Executor` but its `run` is a TODO stub; the stop-loss
monitoring path is modelled from the specification. -/

/-- A market-close order issued by the executor's stop-loss path. -/
structure CloseOrder where
  instrument : String
  size : ℚ
deriving DecidableEq

/-- Modelled from the spec (§4.3): each cycle the executor compares every open
position against its `stop_loss_price` and issues a market-close order when
breached — for a long when the price is at or below the stop, mirrored for a
short. The check reads only the position and the tick price: no signal-engine
state enters it. -/
def stopCheck (p : Position) (tickPrice : ℚ) : Option CloseOrder :=
  if 0 < p.net_size ∧ tickPrice ≤ p.stop_loss_price then
    some { instrument := p.instrument, size := p.net_size }
  else if p.net_size < 0 ∧ p.stop_loss_price ≤ tickPrice then
    some { instrument := p.instrument, size := p.net_size }
  else none

/-- Looking up the instrument of a freshly stored position finds it. -/
theorem findPos_setPos (ps : List Position) (q : Position) :
    findPos (setPos ps q) q.instrument = some q := by
  simp [findPos, setPos]

/-- Variant of `findPos_setPos` keyed on an equal instrument name. -/
theorem findPos_setPos_of_eq (ps : List Position) (q : Position) (i : String)
    (h : q.instrument = i) : findPos (setPos ps q) i = some q := by
  subst h; exact findPos_setPos ps q

/-! ## Theorems for claims C8, C9, C10 -/

/-- C8 counterexample: the claim says any core component's unrecoverable
termination exits with a non-zero code, but `main` returns `Ok(())` after the
`DataMux` branch of the `select!` fires, so the exit code is 0, not non-zero. -/
theorem main_component_termination_exits_zero :
    mainExitCode (MainEvent.componentTerminated Component.dataMux) = 0 := rfl

/-- C8 (amended): the process exits 0 on the external shutdown signal, and it
also exits 0 when any core component terminates; the failing component is named
in the log (via the `warn!` line) in that case. -/
theorem main_exit_codes :
    mainExitCode MainEvent.shutdownSignal = 0 ∧
      ∀ c : Component,
        mainExitCode (MainEvent.componentTerminated c) = 0 ∧
          LogLine.warnTerminated c.displayName ∈ mainLogs (MainEvent.componentTerminated c) := by
  refine ⟨rfl, fun c => ⟨rfl, ?_⟩⟩
  cases c <;> exact List.mem_cons_self _ _

/-- C9: the claim says configuration loading fails fast whenever a required field
is missing and never silently substitutes defaults; but `Config::load` reads no
configuration source at all and unconditionally returns `Ok` with hardcoded
values for every field, so it can never fail. -/
theorem config_load_always_ok :
    Config.load =
      .ok
        { exchange := { binance_key := "test", binance_sec := "test" }
          symbols := { spot := "SOLUSDT", hedge := "SOLUSD_PERP" }
          thresholds :=
            { meme_drop_pct := 3/10, rsi_max := 45, support_low := 160, support_high := 162 }
          risk := { max_trade_risk := 1/20, stop_loss := 155 } } := rfl

/-- C10: the telemetry `/health` route returns the constant `"OK"` and the
`/metrics` route returns the fixed body whose gauge line is
`sol_volume_bot_status 1`; the handlers take no state, so the responses are
independent of engine, account, or component health. -/
theorem telemetry_responses_constant :
    telemetryRespond "/health" = some "OK" ∧
      telemetryRespond "/metrics" =
        some "# HELP sol_volume_bot_status Bot status\n# TYPE sol_volume_bot_status gauge\nsol_volume_bot_status 1\n" :=
  ⟨rfl, rfl⟩

/-- C2: over any tick window, `evaluate` returns a long `TradeIntent` for the
tick's instrument when percent-drop ≥ `meme_drop_pct`, RSI ≤ `rsi_max`, and the
price is inside `[support_low, support_high]` all hold simultaneously, and it
returns no intent when any one of the three conditions fails (AND semantics,
not OR). -/
theorem evaluate_and_semantics (cfg : ThresholdsConfig) (size0 : ℚ)
    (window : List Tick) (t : Tick) :
    (cfg.meme_drop_pct ≤ percentDrop (recentHigh (t :: window)) t.price ∧
        t.rsi ≤ cfg.rsi_max ∧ cfg.support_low ≤ t.price ∧ t.price ≤ cfg.support_high →
      evaluate cfg size0 window t =
        some
          { instrument := t.instrument, direction := .long, size := size0,
            rationale := "meme_drop+rsi+support", generated_at := t.timestamp }) ∧
    (¬(cfg.meme_drop_pct ≤ percentDrop (recentHigh (t :: window)) t.price ∧
        t.rsi ≤ cfg.rsi_max ∧ cfg.support_low ≤ t.price ∧ t.price ≤ cfg.support_high) →
      evaluate cfg size0 window t = none) :=
  ⟨fun h => by simp only [evaluate, if_pos h], fun h => by simp only [evaluate, if_neg h]⟩

/-- The spec's C2 scenario window: a recent high of 230 followed by a dip to 160. -/
def scenarioWindow : List Tick :=
  [{ instrument := "SOLUSDT", timestamp := 2, price := 160, rsi := 38 },
   { instrument := "SOLUSDT", timestamp := 1, price := 230, rsi := 50 }]

/-- The spec's C2 scenario tick: price 161 inside `[160,162]`, RSI 40. -/
def scenarioTick : Tick :=
  { instrument := "SOLUSDT", timestamp := 3, price := 161, rsi := 40 }

/-- C2 witness: with the repository's configured thresholds (drop ≥ 0.30,
RSI ≤ 45, band `[160,162]`), the scenario window (high 230) with current price
161 and RSI 40 emits a long intent for the spot instrument `SOLUSDT`, and the
same tick with RSI raised above `rsi_max` emits nothing. -/
theorem evaluate_and_semantics_witness :
    evaluate { meme_drop_pct := 3/10, rsi_max := 45, support_low := 160, support_high := 162 }
        1 scenarioWindow scenarioTick =
      some
        { instrument := "SOLUSDT", direction := .long, size := 1,
          rationale := "meme_drop+rsi+support", generated_at := 3 } ∧
    evaluate { meme_drop_pct := 3/10, rsi_max := 45, support_low := 160, support_high := 162 }
        1 scenarioWindow { scenarioTick with rsi := 50 } = none :=
  ⟨(evaluate_and_semantics _ 1 scenarioWindow scenarioTick).1
      (by norm_num [percentDrop, recentHigh, scenarioWindow, scenarioTick, max_def]),
   (evaluate_and_semantics _ 1 scenarioWindow { scenarioTick with rsi := 50 }).2
      (by norm_num [scenarioTick])⟩

/-- C3: over any tick sequence with monotonically increasing timestamps, between
any two emissions of same-direction intents (at output positions `i < j`) there
is an intervening tick satisfying the hysteresis-reset condition (price outside
the support band or RSI above `rsi_max`): the slice of ticks strictly between
the two emissions contains a reset tick. -/
theorem signal_hysteresis (cfg : ThresholdsConfig) (size0 : ℚ) (lookback : ℕ)
    (ts : List Tick)
    (_hmono : List.Chain' (fun u v => u.timestamp < v.timestamp) ts)
    (i j : ℕ) (a b : TradeIntent) (hij : i < j)
    (_hdir : a.direction = b.direction)
    (ha : (runSignals cfg size0 lookback EvalState.init ts)[i]? = some (some a))
    (hb : (runSignals cfg size0 lookback EvalState.init ts)[j]? = some (some b)) :
    ((ts.drop (i + 1)).take (j - i - 1)).any (resetCond cfg) = true := by
  obtain ⟨k, hk1, hk2, t, ht, hrt⟩ :=
    runSignals_two_emissions cfg size0 lookback ts EvalState.init i j a b hij ha hb
  rw [List.any_eq_true]
  refine ⟨t, ?_, hrt⟩
  rw [List.mem_iff_getElem?]
  refine ⟨k - i - 1, ?_⟩
  rw [List.getElem?_take, if_pos (by omega), List.getElem?_drop]
  have harith : i + 1 + (k - i - 1) = k := by omega
  rw [harith]
  exact ht

/-- The C3 witness tick sequence: a high of 230, a qualifying dip to 161 (fires),
an excursion to 170 above the band (reset), and a second qualifying dip (fires
again). -/
def hysTicks : List Tick :=
  [{ instrument := "SOLUSDT", timestamp := 1, price := 230, rsi := 50 },
   { instrument := "SOLUSDT", timestamp := 2, price := 161, rsi := 40 },
   { instrument := "SOLUSDT", timestamp := 3, price := 170, rsi := 40 },
   { instrument := "SOLUSDT", timestamp := 4, price := 161, rsi := 40 }]

/-- The repository's configured thresholds, as hardcoded in `Config::load`. -/
def hysCfg : ThresholdsConfig :=
  { meme_drop_pct := 3/10, rsi_max := 45, support_low := 160, support_high := 162 }

/-- C3 witness: on the concrete four-tick sequence above (strictly increasing
timestamps), with emissions at output positions 1 and 3, the tick strictly
between them satisfies the reset condition. -/
theorem signal_hysteresis_witness :
    ((hysTicks.drop 2).take 1).any (resetCond hysCfg) = true := by
  have htr :
      runSignals hysCfg 1 10 EvalState.init hysTicks =
        [none,
         some { instrument := "SOLUSDT", direction := .long, size := 1,
                rationale := "meme_drop+rsi+support", generated_at := 2 },
         none,
         some { instrument := "SOLUSDT", direction := .long, size := 1,
                rationale := "meme_drop+rsi+support", generated_at := 4 }] := by
    norm_num [runSignals, signalStep, evaluate, accepts, resetCond, recentHigh,
      percentDrop, EvalState.init, hysTicks, hysCfg, max_def]
  exact signal_hysteresis hysCfg 1 10 hysTicks
    (by norm_num [hysTicks, List.chain'_cons]) 1 3
    { instrument := "SOLUSDT", direction := .long, size := 1,
      rationale := "meme_drop+rsi+support", generated_at := 2 }
    { instrument := "SOLUSDT", direction := .long, size := 1,
      rationale := "meme_drop+rsi+support", generated_at := 4 }
    (by omega) rfl (by rw [htr]; rfl) (by rw [htr]; rfl)

/-- C1: when an intent's requested size exceeds `max_trade_risk` × equity and no
other rejection condition holds (no opposite-direction position open, balance
sufficient), `check` approves with the size reduced to exactly the
`max_trade_risk` cap, rather than rejecting. -/
theorem check_partial_approval (cfg : RiskConfig) (intent : TradeIntent)
    (snap : AccountSnapshot)
    (hopp : oppositeOpen snap intent = false)
    (hbal : intent.size ≤ snap.balance)
    (hexceed : cfg.max_trade_risk * snap.equity < intent.size) :
    check cfg intent snap =
      { approved := true, adjusted_size := cfg.max_trade_risk * snap.equity,
        reason_if_rejected := some "size reduced to max_trade_risk cap" } := by
  unfold check
  rw [if_neg (by simp [hopp]), if_neg (not_lt.mpr hbal), if_pos hexceed]

/-- C1 witness: the spec scenario — an intent requesting 10% of a 1000 equity
(size 100) against `max_trade_risk = 0.05` is approved with `adjusted_size`
equal to 5% of equity (50), not rejected. -/
theorem check_partial_approval_witness :
    check { max_trade_risk := 1/20, stop_loss := 1/20 }
        { instrument := "SOLUSDT", direction := .long, size := 100,
          rationale := "sig", generated_at := 1 }
        { balance := 1000, equity := 1000, positions := [] } =
      { approved := true, adjusted_size := 5/100 * 1000,
        reason_if_rejected := some "size reduced to max_trade_risk cap" } := by
  have h := check_partial_approval { max_trade_risk := 1/20, stop_loss := 1/20 }
    { instrument := "SOLUSDT", direction := .long, size := 100,
      rationale := "sig", generated_at := 1 }
    { balance := 1000, equity := 1000, positions := [] }
    rfl (by norm_num) (by norm_num)
  rw [h]
  norm_num [RiskDecision.mk.injEq]

/-- C5: a fill referencing an instrument with no matching prior intent/order
record makes `applyFill` fail with `AccountError.Inconsistent` and return the
account state completely unchanged. -/
theorem applyFill_unknown_instrument (cfg : RiskConfig) (st : AccountState)
    (f : Fill) (h : f.instrument ∉ st.records) :
    applyFill cfg st f = (st, .error .Inconsistent) := by
  unfold applyFill
  rw [if_neg h]

/-- C5 witness: a fill on the unknown instrument `BTCUSDT` against an account
holding a `SOLUSDT` position fails with `Inconsistent` and leaves the balance
and the existing position exactly as they were. -/
theorem applyFill_unknown_instrument_witness :
    applyFill { max_trade_risk := 1/20, stop_loss := 1/20 }
        { balance := 1000,
          positions := [{ instrument := "SOLUSDT", net_size := 2, entry_price := 160,
                          unrealized_pnl := 0, stop_loss_price := 152 }],
          records := ["SOLUSDT"] }
        { instrument := "BTCUSDT", size := 1, price := 100, timestamp := 5 } =
      ({ balance := 1000,
         positions := [{ instrument := "SOLUSDT", net_size := 2, entry_price := 160,
                         unrealized_pnl := 0, stop_loss_price := 152 }],
         records := ["SOLUSDT"] }, .error .Inconsistent) :=
  applyFill_unknown_instrument _ _ _ (by decide)

/-- C7: `check` is a deterministic pure function of its (intent, snapshot) pair:
in any two batches of invocations, in any order and interleaving, every
occurrence of the same pair yields the identical `RiskDecision` — the decision
at a position depends only on the pair at that position. (The model threads no
account state through `check`; mutation-freedom holds by construction.) -/
theorem check_deterministic (cfg : RiskConfig)
    (calls calls' : List (TradeIntent × AccountSnapshot)) (k k' : ℕ)
    (p : TradeIntent × AccountSnapshot)
    (h : calls[k]? = some p) (h' : calls'[k']? = some p) :
    (runChecks cfg calls)[k]? = some (check cfg p.1 p.2) ∧
      (runChecks cfg calls)[k]? = (runChecks cfg calls')[k']? := by
  have e1 : (runChecks cfg calls)[k]? = some (check cfg p.1 p.2) := by
    simp [runChecks, List.getElem?_map, h]
  have e2 : (runChecks cfg calls')[k']? = some (check cfg p.1 p.2) := by
    simp [runChecks, List.getElem?_map, h']
  exact ⟨e1, e1.trans e2.symm⟩

/-- The (intent, snapshot) pair used by the C7 witness. -/
def pureCall : TradeIntent × AccountSnapshot :=
  ({ instrument := "SOLUSDT", direction := .long, size := 10,
     rationale := "sig", generated_at := 1 },
   { balance := 1000, equity := 1000, positions := [] })

/-- A second, different call used to build a different interleaving for C7. -/
def otherCall : TradeIntent × AccountSnapshot :=
  ({ instrument := "SOLUSD_PERP", direction := .short, size := 5,
     rationale := "hedge", generated_at := 2 },
   { balance := 500, equity := 500, positions := [] })

/-- C7 witness: the same pair, invoked first in one batch and second in another
batch behind a different call, yields the identical decision in both. -/
theorem check_deterministic_witness :
    (runChecks { max_trade_risk := 1/20, stop_loss := 1/20 } [pureCall])[0]? =
        some (check { max_trade_risk := 1/20, stop_loss := 1/20 }
          pureCall.1 pureCall.2) ∧
      (runChecks { max_trade_risk := 1/20, stop_loss := 1/20 } [pureCall])[0]? =
        (runChecks { max_trade_risk := 1/20, stop_loss := 1/20 }
          [otherCall, pureCall])[1]? :=
  check_deterministic { max_trade_risk := 1/20, stop_loss := 1/20 }
    [pureCall] [otherCall, pureCall] 0 1 pureCall rfl rfl

/-- C4: any position stored by a successful `applyFill` that is long
(`net_size > 0`) carries `stop_loss_price = entry_price × (1 − stop_loss)`, and
on any subsequent tick whose price is at or below that stop the executor's
monitor issues a closing order for the whole position — the monitor reads no
signal-evaluator state. -/
theorem stop_loss_recompute (cfg : RiskConfig) (st : AccountState) (f : Fill)
    (p : Position)
    (hok : (applyFill cfg st f).2 = .ok ())
    (hp : findPos (applyFill cfg st f).1.positions f.instrument = some p)
    (hlong : 0 < p.net_size) :
    p.stop_loss_price = p.entry_price * (1 - cfg.stop_loss) ∧
      ∀ price : ℚ, price ≤ p.stop_loss_price →
        stopCheck p price = some { instrument := p.instrument, size := p.net_size } := by
  have hstop : p.stop_loss_price = stopLossPrice cfg.stop_loss p.entry_price p.net_size := by
    by_cases hrec : f.instrument ∈ st.records
    · cases hfp : findPos st.positions f.instrument with
      | none =>
        have hpos : (applyFill cfg st f).1.positions = setPos st.positions (newPos cfg f) := by
          simp [applyFill, hrec, hfp]
        rw [hpos, findPos_setPos_of_eq st.positions (newPos cfg f) f.instrument rfl] at hp
        obtain rfl := (Option.some.injEq _ _).mp hp
        rfl
      | some p0 =>
        by_cases hdirn : 0 ≤ p0.net_size * f.size
        · have hpos : (applyFill cfg st f).1.positions =
              setPos st.positions (combinePos cfg p0 f) := by
            simp [applyFill, hrec, hfp, hdirn]
          rw [hpos, findPos_setPos_of_eq st.positions (combinePos cfg p0 f) f.instrument rfl] at hp
          obtain rfl := (Option.some.injEq _ _).mp hp
          rfl
        · have hpos : (applyFill cfg st f).1.positions =
              setPos st.positions (reducePos cfg p0 f) := by
            simp [applyFill, hrec, hfp, hdirn]
          rw [hpos, findPos_setPos_of_eq st.positions (reducePos cfg p0 f) f.instrument rfl] at hp
          obtain rfl := (Option.some.injEq _ _).mp hp
          rfl
    · unfold applyFill at hok
      rw [if_neg hrec] at hok
      simp at hok
  constructor
  · rw [hstop, stopLossPrice, if_neg (not_lt.mpr hlong.le)]
  · intro price hpr
    unfold stopCheck
    rw [if_pos ⟨hlong, hpr⟩]

/-- The account used by the C4 witness: a `SOLUSDT` record and no open position. -/
def stopFillState : AccountState :=
  { balance := 1000, positions := [], records := ["SOLUSDT"] }

/-- The C4 witness fill: buy 1 at entry price 160. -/
def stopFill : Fill := { instrument := "SOLUSDT", size := 1, price := 160, timestamp := 1 }

/-- The position stored by `applyFill` for the C4 witness. -/
def stopPos : Position := newPos { max_trade_risk := 1/20, stop_loss := 1/20 } stopFill

/-- C4 witness: the spec scenario — a long position entered at 160 with
`stop_loss = 0.05` carries `stop_loss_price = 152`, and a subsequent tick at
price 151 makes the stop monitor issue a closing order. -/
theorem stop_loss_recompute_witness :
    stopPos.stop_loss_price = 152 ∧
      stopCheck stopPos 151 = some { instrument := "SOLUSDT", size := 1 } := by
  have h := stop_loss_recompute { max_trade_risk := 1/20, stop_loss := 1/20 }
    stopFillState stopFill stopPos rfl rfl (by norm_num [stopPos, newPos, stopFill])
  have hs : stopPos.stop_loss_price = 152 := by
    rw [h.1]; norm_num [stopPos, newPos, stopFill]
  refine ⟨hs, ?_⟩
  have hc := h.2 151 (by rw [hs]; norm_num)
  simpa [stopPos, newPos, stopFill] using hc

/-- Modelled from the spec (§8, weighted-average invariant): the single fill
equivalent to two same-direction fills — the summed size at the size-weighted
average price. -/
def combFill (f1 f2 : Fill) : Fill :=
  { instrument := f1.instrument, size := f1.size + f2.size,
    price := (f1.price * f1.size + f2.price * f2.size) / (f1.size + f2.size),
    timestamp := f2.timestamp }

/-- C6: applying two same-direction fills `f1` then `f2` (sizes of the same
sign: both buys or both sells) on the same instrument yields the same
`net_size` and `entry_price` as applying the single equivalent combined fill
(summed size, size-weighted average price), whether the fills open a fresh
position or fold into an existing position of the same direction (an
opposite-direction prior position would route the fills through the reduction
branch, where the weighted-average invariant does not apply). -/
theorem applyFill_weighted_average (cfg : RiskConfig) (st : AccountState)
    (f1 f2 : Fill)
    (hins : f2.instrument = f1.instrument)
    (hrec : f1.instrument ∈ st.records)
    (hsame : 0 < f1.size * f2.size)
    (hprior : findPos st.positions f1.instrument = none ∨
      ∃ p, findPos st.positions f1.instrument = some p ∧ 0 ≤ p.net_size * f1.size) :
    ((findPos (applyFill cfg (applyFill cfg st f1).1 f2).1.positions f1.instrument).map
        Position.net_size =
      (findPos (applyFill cfg st (combFill f1 f2)).1.positions f1.instrument).map
        Position.net_size) ∧
    ((findPos (applyFill cfg (applyFill cfg st f1).1 f2).1.positions f1.instrument).map
        Position.entry_price =
      (findPos (applyFill cfg st (combFill f1 f2)).1.positions f1.instrument).map
        Position.entry_price) := by
  rcases hprior with hfp | ⟨p, hfp, hcompat⟩
  · -- no prior open position: the fills open and then grow a fresh position
    have hne3 : f1.size + f2.size ≠ 0 := by
      rcases mul_pos_iff.mp hsame with ⟨a1, a2⟩ | ⟨a1, a2⟩
      · exact (by linarith : (0:ℚ) < f1.size + f2.size).ne'
      · exact (by linarith : f1.size + f2.size < 0).ne
    have e1 : (applyFill cfg st f1).1 =
        { st with positions := setPos st.positions (newPos cfg f1) } := by
      simp [applyFill, hrec, hfp]
    have hfp1 : findPos (setPos st.positions (newPos cfg f1)) f1.instrument =
        some (newPos cfg f1) :=
      findPos_setPos_of_eq st.positions (newPos cfg f1) f1.instrument rfl
    have hn1 : (newPos cfg f1).net_size = f1.size := rfl
    have hd2 : 0 ≤ (newPos cfg f1).net_size * f2.size := by
      rw [hn1]; exact hsame.le
    have e2 : (applyFill cfg
          ({ st with positions := setPos st.positions (newPos cfg f1) }) f2).1 =
        { st with positions :=
            (setPos (setPos st.positions (newPos cfg f1))
              (combinePos cfg (newPos cfg f1) f2)) } := by
      simp [applyFill, hins, hrec, hfp1, hd2]
    have ec : (applyFill cfg st (combFill f1 f2)).1 =
        { st with positions := setPos st.positions (newPos cfg (combFill f1 f2)) } := by
      simp [applyFill, combFill, hrec, hfp]
    have keyNet : (combinePos cfg (newPos cfg f1) f2).net_size =
        (newPos cfg (combFill f1 f2)).net_size := rfl
    have keyEntry : (combinePos cfg (newPos cfg f1) f2).entry_price =
        (newPos cfg (combFill f1 f2)).entry_price := by
      simp only [combinePos, newPos, combineEntry, combFill]
      rw [if_neg hne3]
    rw [e1, e2, ec,
      findPos_setPos_of_eq (setPos st.positions (newPos cfg f1))
        (combinePos cfg (newPos cfg f1) f2) f1.instrument hins,
      findPos_setPos_of_eq st.positions
        (newPos cfg (combFill f1 f2)) f1.instrument rfl]
    simp [keyNet, keyEntry]
  · -- an existing position of the same direction: the fills fold in
    obtain ⟨hd2p, hdc, hne1, hne2, hne3, hs4⟩ :
        0 ≤ (p.net_size + f1.size) * f2.size ∧
          0 ≤ p.net_size * (f1.size + f2.size) ∧
          p.net_size + f1.size ≠ 0 ∧ p.net_size + f1.size + f2.size ≠ 0 ∧
          f1.size + f2.size ≠ 0 ∧ p.net_size + (f1.size + f2.size) ≠ 0 := by
      rcases mul_pos_iff.mp hsame with ⟨a1, a2⟩ | ⟨a1, a2⟩
      · have hpn : 0 ≤ p.net_size := by nlinarith
        exact ⟨le_of_lt (mul_pos (by linarith) a2), mul_nonneg hpn (by linarith),
          (by linarith : (0:ℚ) < p.net_size + f1.size).ne',
          (by linarith : (0:ℚ) < p.net_size + f1.size + f2.size).ne',
          (by linarith : (0:ℚ) < f1.size + f2.size).ne',
          (by linarith : (0:ℚ) < p.net_size + (f1.size + f2.size)).ne'⟩
      · have hpn : p.net_size ≤ 0 := by nlinarith
        exact ⟨le_of_lt (mul_pos_of_neg_of_neg (by linarith) a2),
          (by nlinarith : (0:ℚ) ≤ p.net_size * (f1.size + f2.size)),
          (by linarith : p.net_size + f1.size < 0).ne,
          (by linarith : p.net_size + f1.size + f2.size < 0).ne,
          (by linarith : f1.size + f2.size < 0).ne,
          (by linarith : p.net_size + (f1.size + f2.size) < 0).ne⟩
    have e1 : (applyFill cfg st f1).1 =
        { st with positions := setPos st.positions (combinePos cfg p f1) } := by
      simp [applyFill, hrec, hfp, hcompat]
    have hfp1 : findPos (setPos st.positions (combinePos cfg p f1)) f1.instrument =
        some (combinePos cfg p f1) :=
      findPos_setPos_of_eq st.positions (combinePos cfg p f1) f1.instrument rfl
    have hn1 : (combinePos cfg p f1).net_size = p.net_size + f1.size := rfl
    have hd2 : 0 ≤ (combinePos cfg p f1).net_size * f2.size := by
      rw [hn1]; exact hd2p
    have e2 : (applyFill cfg
          ({ st with positions := setPos st.positions (combinePos cfg p f1) }) f2).1 =
        { st with positions :=
            (setPos (setPos st.positions (combinePos cfg p f1))
              (combinePos cfg (combinePos cfg p f1) f2)) } := by
      simp [applyFill, hins, hrec, hfp1, hd2]
    have ec : (applyFill cfg st (combFill f1 f2)).1 =
        { st with positions := setPos st.positions (combinePos cfg p (combFill f1 f2)) } := by
      simp [applyFill, combFill, hrec, hfp, hdc]
    have keyNet : (combinePos cfg (combinePos cfg p f1) f2).net_size =
        (combinePos cfg p (combFill f1 f2)).net_size := by
      simp only [combinePos, combFill]
      ring
    have keyEntry : (combinePos cfg (combinePos cfg p f1) f2).entry_price =
        (combinePos cfg p (combFill f1 f2)).entry_price := by
      simp only [combinePos, combFill, combineEntry]
      simp only [hne1, hne2, hne3, hs4, if_false, if_neg]
      field_simp
      ring
    rw [e1, e2, ec,
      findPos_setPos_of_eq (setPos st.positions (combinePos cfg p f1))
        (combinePos cfg (combinePos cfg p f1) f2) f1.instrument hins,
      findPos_setPos_of_eq st.positions
        (combinePos cfg p (combFill f1 f2)) f1.instrument rfl]
    simp [keyNet, keyEntry]

/-- The account used by the C6 witness: a `SOLUSDT` record and no open position. -/
def wavState : AccountState :=
  { balance := 1000, positions := [], records := ["SOLUSDT"] }

/-- First fill of the C6 witness: a short fill, selling 1 at 100. -/
def wavF1 : Fill := { instrument := "SOLUSDT", size := -1, price := 100, timestamp := 1 }

/-- Second fill of the C6 witness, same (short) direction: selling 3 at 200. -/
def wavF2 : Fill := { instrument := "SOLUSDT", size := -3, price := 200, timestamp := 2 }

/-- C6 witness: on an account with no open position, selling 1 @ 100 and then
3 @ 200 (a same-direction short pair opening a fresh position) gives the same
`net_size` and `entry_price` as the single combined fill of −4 at the weighted
price 175. -/
theorem applyFill_weighted_average_witness :
    ((findPos (applyFill { max_trade_risk := 1/20, stop_loss := 1/20 }
          (applyFill { max_trade_risk := 1/20, stop_loss := 1/20 } wavState wavF1).1
          wavF2).1.positions wavF1.instrument).map Position.net_size =
      (findPos (applyFill { max_trade_risk := 1/20, stop_loss := 1/20 } wavState
          (combFill wavF1 wavF2)).1.positions wavF1.instrument).map Position.net_size) ∧
    ((findPos (applyFill { max_trade_risk := 1/20, stop_loss := 1/20 }
          (applyFill { max_trade_risk := 1/20, stop_loss := 1/20 } wavState wavF1).1
          wavF2).1.positions wavF1.instrument).map Position.entry_price =
      (findPos (applyFill { max_trade_risk := 1/20, stop_loss := 1/20 } wavState
          (combFill wavF1 wavF2)).1.positions wavF1.instrument).map Position.entry_price) :=
  applyFill_weighted_average { max_trade_risk := 1/20, stop_loss := 1/20 }
    wavState wavF1 wavF2 rfl (by decide) (by norm_num [wavF1, wavF2]) (Or.inl rfl)

end Solrust
